import Mathlib

/-!
Verification of the photo/video organiser (`organise_photos.py`).

The script walks a source tree, resolves a creation date for every media
file (EXIF `DateTimeOriginal` when possible, modification time otherwise),
computes a destination path `dest/YYYY/MM/<name>` with collision-avoiding
numeric suffixes, and copies / moves / HEIC-converts the file there.

This file gives a shallow embedding of that logic:
* paths are strings joined with `/` (as `os.path.join` does for relative
  components);
* `splitext` follows `posixpath.splitext` exactly (the extension starts at
  the last dot of the basename, provided some earlier basename character is
  not a dot);
* the filesystem is an explicit state: association lists from destination
  (resp. source) path to an abstract content tag, plus a log of printed
  messages; `os.path.exists` on a candidate destination path is membership
  among the destination keys (the model assumes source and destination
  trees are disjoint, as the script itself does);
* fallible library calls (`Image.open`, `_getexif`, `strptime`,
  HEIC decode/encode) are modelled by `Except`/`Option` results and a
  per-file success flag.
-/

namespace PhotosOrganiser

/-- A wall-clock timestamp, the part of Python's `datetime` the script uses. -/
structure Date where
  year : Nat
  month : Nat
  day : Nat
  hour : Nat
  minute : Nat
  second : Nat
deriving DecidableEq, Repr

/-- The character for a single decimal digit `d < 10`. -/
def digitChar (d : Nat) : Char := Char.ofNat (48 + d)

/-- Fuel-bounded helper for `natDigits`; any fuel at least `n` yields the
decimal digits of `n`. -/
def natDigitsAux : Nat → Nat → List Char
  | 0, n => [digitChar n]
  | fuel + 1, n =>
    if n < 10 then [digitChar n]
    else natDigitsAux fuel (n / 10) ++ [digitChar (n % 10)]

/-- Big-endian decimal digits of a natural number, as characters.
Models the decimal rendering used by Python f-strings and `strftime`. -/
def natDigits (n : Nat) : List Char := natDigitsAux n n

/-- Decimal rendering of a natural number (Python `f"{n}"`). -/
def natRepr (n : Nat) : String := String.mk (natDigits n)

/-- Index of the last occurrence of a character in a list, if any. -/
def lastIdxOf (c : Char) : List Char → Option Nat
  | [] => none
  | a :: as =>
    match lastIdxOf c as with
    | some i => some (i + 1)
    | none => if a = c then some 0 else none

/-- Python `posixpath.splitext` on the character list of a path: split at the
last dot, provided it lies in the basename and some basename character before
it is not a dot (so dotfiles such as `.jpg` have no extension). -/
def splitextData (l : List Char) : List Char × List Char :=
  let sepIdx : Nat :=
    match lastIdxOf '/' l with
    | some i => i + 1
    | none => 0
  match lastIdxOf '.' l with
  | none => (l, [])
  | some dotIdx =>
    if sepIdx ≤ dotIdx ∧ ((l.drop sepIdx).take (dotIdx - sepIdx)).any (fun a => a != '.')
    then (l.take dotIdx, l.drop dotIdx)
    else (l, [])

/-- Python `os.path.splitext` on strings. -/
def splitext (s : String) : String × String :=
  ((splitextData s.data).1.asString, (splitextData s.data).2.asString)

/-- ASCII lowercasing, modelling Python `str.lower` on extension strings. -/
def lowerStr (s : String) : String := (s.data.map Char.toLower).asString

/-- Python `os.path.join` for a relative second component. -/
def pjoin (p q : String) : String := p ++ "/" ++ q

/-- The `IMAGE_EXTENSIONS` set of the script. -/
def IMAGE_EXTENSIONS : List String :=
  [".jpg", ".jpeg", ".png", ".gif", ".tiff", ".bmp", ".heic"]

/-- The `VIDEO_EXTENSIONS` set of the script. -/
def VIDEO_EXTENSIONS : List String :=
  [".mp4", ".mov", ".avi", ".mkv", ".mts", ".wmv"]

/-- The `EXIF_DATETIME_TAG` constant of the script. -/
def EXIF_DATETIME_TAG : String := "DateTimeOriginal"

/-- Gregorian leap-year test (as in Python's `calendar`/`datetime`). -/
def isLeap (y : Nat) : Bool := (y % 4 = 0 ∧ y % 100 ≠ 0) ∨ y % 400 = 0

/-- Days in a month, as validated by Python's `datetime` constructor. -/
def daysInMonth (y m : Nat) : Nat :=
  if m = 2 then (if isLeap y then 29 else 28)
  else if m = 4 ∨ m = 6 ∨ m = 9 ∨ m = 11 then 30
  else 31

/-- Numeric value of a decimal digit character. -/
def digitVal (c : Char) : Nat := c.toNat - 48

/-- Value of a big-endian digit string. -/
def digitsToNat (l : List Char) : Nat := l.foldl (fun a c => 10 * a + digitVal c) 0

/-- Model of `datetime.strptime(value, "%Y:%m:%d %H:%M:%S")`: CPython's
`_strptime` regular expression (four digits for `%Y`, one or two digits
within range for the other fields, the whole string consumed) followed by
the range checks of the `datetime` constructor (positive year, day within
the month, hour below 24, minute and second below 60).  Returns `none`
exactly when the Python call raises, which the script catches. -/
def strptimeDT (s : String) : Option Date :=
  let yd := s.data.takeWhile Char.isDigit
  let r1 := s.data.dropWhile Char.isDigit
  if yd.length ≠ 4 then none else
  let y := digitsToNat yd
  if y = 0 then none else
  match r1 with
  | ':' :: r2 =>
    let md := r2.takeWhile Char.isDigit
    let r3 := r2.dropWhile Char.isDigit
    if md.length = 0 ∨ 2 < md.length then none else
    let m := digitsToNat md
    if m = 0 ∨ 12 < m then none else
    match r3 with
    | ':' :: r4 =>
      let dd := r4.takeWhile Char.isDigit
      let r5 := r4.dropWhile Char.isDigit
      if dd.length = 0 ∨ 2 < dd.length then none else
      let d := digitsToNat dd
      if d = 0 ∨ daysInMonth y m < d then none else
      match r5 with
      | ' ' :: r6 =>
        let hd := r6.takeWhile Char.isDigit
        let r7 := r6.dropWhile Char.isDigit
        if hd.length = 0 ∨ 2 < hd.length then none else
        let hh := digitsToNat hd
        if 23 < hh then none else
        match r7 with
        | ':' :: r8 =>
          let mind := r8.takeWhile Char.isDigit
          let r9 := r8.dropWhile Char.isDigit
          if mind.length = 0 ∨ 2 < mind.length then none else
          let mi := digitsToNat mind
          if 59 < mi then none else
          match r9 with
          | ':' :: r10 =>
            let sd := r10.takeWhile Char.isDigit
            let r11 := r10.dropWhile Char.isDigit
            if sd.length = 0 ∨ 2 < sd.length then none else
            let ss := digitsToNat sd
            if 59 < ss then none else
            if r11 = [] then some ⟨y, m, d, hh, mi, ss⟩ else none
          | _ => none
        | _ => none
      | _ => none
    | _ => none
  | _ => none

deriving instance DecidableEq for Except

/-- One source file as the script sees it: its directory (`root` from
`os.walk`), its basename, the outcome of `Image.open` + `_getexif`
(`.error` when opening raises, otherwise the EXIF items with tag ids
already decoded through `ExifTags.TAGS`), its modification time, whether a
HEIC decode + JPEG encode of it would succeed, and an abstract content tag. -/
structure FileData where
  root : String
  name : String
  exif : Except Unit (List (String × String))
  mtime : Date
  convertOk : Bool
  content : Nat
deriving DecidableEq, Repr

/-- Full source path of a file, `os.path.join(root, filename)`. -/
def srcPathOf (f : FileData) : String := pjoin f.root f.name

/-- Lowercased extension of the full source path, as computed at the top of
`get_creation_date`. -/
def pathExtOf (f : FileData) : String := lowerStr (splitext (srcPathOf f)).2

/-- Lowercased extension of the basename, as computed in the walk loop of
`organize_files`. -/
def extOf (f : FileData) : String := lowerStr (splitext f.name).2

/-- The script's `get_creation_date`: for a non-HEIC image extension with
Pillow available, return the parsed `DateTimeOriginal` EXIF value when the
open, the tag lookup and the parse all succeed; in every other case fall
back to the modification time. -/
def get_creation_date (pil : Bool) (f : FileData) : Date :=
  if pil ∧ pathExtOf f ∈ IMAGE_EXTENSIONS ∧ pathExtOf f ≠ ".heic" then
    match f.exif with
    | .error _ => f.mtime
    | .ok items =>
      match items.find? (fun it => it.1 = EXIF_DATETIME_TAG) with
      | some it =>
        match strptimeDT it.2 with
        | some d => d
        | none => f.mtime
      | none => f.mtime
  else f.mtime

/-- Linux `strftime("%Y")`: the year in decimal, no padding. -/
def strftimeY (d : Date) : String := natRepr d.year

/-- Two-digit zero-padded decimal, for `strftime("%m")`. -/
def pad2 (n : Nat) : String :=
  if n < 10 then ('0' :: natDigits n).asString else natRepr n

/-- Linux `strftime("%m")`: the month, zero-padded to two digits. -/
def strftimeM (d : Date) : String := pad2 d.month

/-- The `dest_dir/year/month` folder computed for a file. -/
def targetFolderOf (pil : Bool) (destDir : String) (f : FileData) : String :=
  pjoin (pjoin destDir (strftimeY (get_creation_date pil f)))
    (strftimeM (get_creation_date pil f))

/-- The destination basename: stem + `.jpg` for a HEIC being converted,
the original filename otherwise. -/
def destNameOf (convertHeic : Bool) (f : FileData) : String :=
  if convertHeic ∧ extOf f = ".heic" then (splitext f.name).1 ++ ".jpg" else f.name

/-- The `k`-th collision candidate `folder/stem_k + extn`
(`f"{name}_{counter}{extn}"` joined to the target folder). -/
def candidate (folder stem extn : String) (k : Nat) : String :=
  pjoin folder (stem ++ "_" ++ natRepr k ++ extn)

/-- The collision `while` loop of `organize_files`: while the current
candidate exists, move to `folder/stem_counter + extn` and increment the
counter.  `fuel` bounds the iterations; `findDestPath` supplies enough fuel
for the loop to reach a free path. -/
def collideLoop (existing : List String) (folder stem extn : String) :
    Nat → Nat → String → String
  | 0, _, cur => cur
  | fuel + 1, counter, cur =>
    if cur ∈ existing then
      collideLoop existing folder stem extn fuel (counter + 1)
        (candidate folder stem extn counter)
    else cur

/-- Destination-path computation with collision avoidance: start from
`folder/destName`, then run the collision loop. -/
def findDestPath (existing : List String) (folder destName : String) : String :=
  collideLoop existing folder (splitext destName).1 (splitext destName).2
    (existing.length + 1) 1 (pjoin folder destName)

/-- The filesystem-and-output state of one run: source files, destination
files (path ↦ abstract content) and the printed log, newest entry first. -/
structure FSState where
  src : List (String × Nat)
  dst : List (String × Nat)
  log : List String
deriving DecidableEq, Repr

/-- The destination paths that exist. -/
def keys (l : List (String × Nat)) : List String := l.map Prod.fst

/-- Processing of a single walked file inside `organize_files`: skip
unrecognised extensions; otherwise resolve the date, compute the collision
free destination path, and perform the copy / move / convert action.
A failing HEIC conversion only logs and leaves both trees unchanged;
a successful one writes the destination first and deletes the source only
when `move_files` is set. -/
def processFile (pil moveFiles convertHeic : Bool) (destDir : String)
    (st : FSState) (f : FileData) : FSState :=
  if extOf f ∈ IMAGE_EXTENSIONS ∨ extOf f ∈ VIDEO_EXTENSIONS then
    let srcPath := srcPathOf f
    let targetFolder := targetFolderOf pil destDir f
    let destPath := findDestPath (keys st.dst) targetFolder (destNameOf convertHeic f)
    if convertHeic ∧ extOf f = ".heic" then
      if f.convertOk then
        let st1 : FSState :=
          { st with dst := (destPath, f.content) :: st.dst,
                    log := ("Converted: " ++ srcPath ++ " -> " ++ destPath) :: st.log }
        if moveFiles then
          { st1 with src := st1.src.filter (fun p => p.1 != srcPath) }
        else st1
      else
        { st with log := ("Failed to convert " ++ srcPath) :: st.log }
    else
      if moveFiles then
        { st with src := st.src.filter (fun p => p.1 != srcPath),
                  dst := (destPath, f.content) :: st.dst,
                  log := ("Moved: " ++ srcPath ++ " -> " ++ destPath) :: st.log }
      else
        { st with dst := (destPath, f.content) :: st.dst,
                  log := ("Copied: " ++ srcPath ++ " -> " ++ destPath) :: st.log }
  else st

/-- The script's `organize_files`: the two pre-flight checks (`sys.exit(1)`
each), then the walk processing every file in order.  The returned number is
the process exit code: the model treats the plain filesystem operations
(`makedirs`, `copy2`, `move`) as succeeding, so a normal run finishes with
code 0. -/
def organize_files (pil heif : Bool) (srcIsDir : Bool) (destDir : String)
    (moveFiles convertHeic : Bool) (files : List FileData) (st : FSState) :
    Nat × FSState :=
  if ¬ srcIsDir then
    (1, { st with log := "Source directory does not exist" :: st.log })
  else if convertHeic ∧ ¬ heif then
    (1, { st with log := "Error: pillow-heif is required for HEIC conversion." :: st.log })
  else
    (0, files.foldl (processFile pil moveFiles convertHeic destDir) st)

/-- EXIF usability for a file: Pillow present, a non-HEIC image extension,
the open succeeded, the `DateTimeOriginal` item is present and its value
parses. -/
def exifUsable (pil : Bool) (f : FileData) : Prop :=
  pil = true ∧ pathExtOf f ∈ IMAGE_EXTENSIONS ∧ pathExtOf f ≠ ".heic" ∧
  ∃ items it d, f.exif = .ok items ∧
    items.find? (fun p => p.1 = EXIF_DATETIME_TAG) = some it ∧
    strptimeDT it.2 = some d

/-- The `destDir/year/month` folder for a given resolved date. -/
def ymFolder (destDir : String) (d : Date) : String :=
  pjoin (pjoin destDir (strftimeY d)) (strftimeM d)

/-- The sequence of paths the collision loop tests: first the current path,
then the numbered candidates from `counter` on. -/
def checkSeq (folder stem extn : String) (counter : Nat) (cur : String) : Nat → String
  | 0 => cur
  | j + 1 => candidate folder stem extn (counter + j)

/-- Test fixture: a HEIC file with a valid `DateTimeOriginal` EXIF item whose
date (2020-01-01) differs from its modification time (2023-05-06). -/
def fileC1 : FileData :=
  ⟨"src", "c.heic", .ok [("DateTimeOriginal", "2020:01:01 00:00:00")],
    ⟨2023, 5, 6, 7, 8, 9⟩, true, 0⟩

/-- Test fixture: a JPEG with no readable EXIF (open fails), mtime 2022-07-01. -/
def fileA : FileData := ⟨"r1", "x.jpg", .error (), ⟨2022, 7, 1, 0, 0, 0⟩, true, 1⟩

/-- Test fixture: a second JPEG with the same basename and mtime month as `fileA`. -/
def fileB : FileData := ⟨"r2", "x.jpg", .error (), ⟨2022, 7, 2, 3, 4, 5⟩, true, 2⟩

/-- Test fixture: a JPEG with a valid `DateTimeOriginal` of 2021-03-15 and a
different modification time. -/
def fileC4 : FileData :=
  ⟨"src", "a.jpg", .ok [("DateTimeOriginal", "2021:03:15 10:00:00")],
    ⟨2022, 7, 1, 0, 0, 0⟩, true, 4⟩

/-- Test fixture: a PNG whose `Image.open` raises, mtime 2022-07-01. -/
def fileC5 : FileData := ⟨"src", "b.png", .error (), ⟨2022, 7, 1, 0, 0, 0⟩, true, 5⟩

/-- Test fixture: a HEIC file whose decode/encode fails. -/
def fileC6 : FileData := ⟨"src", "c.heic", .ok [], ⟨2020, 1, 1, 0, 0, 0⟩, false, 6⟩

/-- Test fixture: an MP4 video that nevertheless carries EXIF-like items. -/
def fileC9 : FileData :=
  ⟨"src", "v.mp4", .ok [("DateTimeOriginal", "2020:01:01 00:00:00")],
    ⟨2022, 7, 1, 0, 0, 0⟩, true, 9⟩

/-- Test fixture: the empty filesystem state. -/
def emptyFS : FSState := ⟨[], [], []⟩

/-- Test fixture: a state in which only the source HEIC file exists. -/
def stC6 : FSState := ⟨[("src/c.heic", 6)], [], []⟩

/-- Test fixture: a destination that already holds `d/2020/01/c.jpg`. -/
def existC10 : List String := ["d/2020/01/c.jpg"]

/-! ### Decimal rendering lemmas -/

theorem digitChar_inj : ∀ a, a < 10 → ∀ b, b < 10 → digitChar a = digitChar b → a = b := by
  decide

theorem natDigitsAux_irrel : ∀ f1 n, n ≤ f1 → ∀ f2, n ≤ f2 →
    natDigitsAux f1 n = natDigitsAux f2 n := by
  intro f1
  induction f1 with
  | zero =>
    intro n hn f2 _
    interval_cases n
    cases f2 with
    | zero => rfl
    | succ f2 => simp [natDigitsAux]
  | succ f1 ih =>
    intro n hn f2 hn2
    cases f2 with
    | zero =>
      interval_cases n
      simp [natDigitsAux]
    | succ f2 =>
      by_cases h10 : n < 10
      · simp [natDigitsAux, h10]
      · have hlt : n / 10 < n := Nat.div_lt_self (by omega) (by decide)
        simp only [natDigitsAux, if_neg h10]
        rw [ih (n / 10) (by omega) f2 (by omega)]

theorem natDigits_lt (n : Nat) (h : n < 10) : natDigits n = [digitChar n] := by
  unfold natDigits
  cases n with
  | zero => rfl
  | succ n => simp [natDigitsAux, h]

theorem natDigits_ge (n : Nat) (h : ¬ n < 10) :
    natDigits n = natDigits (n / 10) ++ [digitChar (n % 10)] := by
  unfold natDigits
  cases hn : n with
  | zero => omega
  | succ m =>
    simp only [natDigitsAux, if_neg (hn ▸ h)]
    rw [natDigitsAux_irrel m ((m + 1) / 10) (by omega) ((m + 1) / 10) (by omega)]

theorem natDigits_length_pos (n : Nat) : 0 < (natDigits n).length := by
  by_cases h : n < 10
  · rw [natDigits_lt n h]; simp
  · rw [natDigits_ge n h]; simp

theorem natDigits_inj : ∀ m n : Nat, natDigits m = natDigits n → m = n := by
  intro m
  induction m using Nat.strong_induction_on with
  | _ m ih =>
    intro n h
    by_cases hm : m < 10 <;> by_cases hn : n < 10
    · rw [natDigits_lt m hm, natDigits_lt n hn] at h
      simp only [List.cons.injEq, and_true] at h
      exact digitChar_inj m hm n hn h
    · rw [natDigits_lt m hm, natDigits_ge n hn] at h
      have hlen := congrArg List.length h
      have hpos := natDigits_length_pos (n / 10)
      simp only [List.length_append, List.length_cons, List.length_nil] at hlen
      omega
    · rw [natDigits_ge m hm, natDigits_lt n hn] at h
      have hlen := congrArg List.length h
      have hpos := natDigits_length_pos (m / 10)
      simp only [List.length_append, List.length_cons, List.length_nil] at hlen
      omega
    · rw [natDigits_ge m hm, natDigits_ge n hn] at h
      obtain ⟨h3, h4⟩ := List.append_inj' h rfl
      have hdiv : m / 10 = n / 10 :=
        ih (m / 10) (Nat.div_lt_self (by omega) (by decide)) (n / 10) h3
      have hdig : digitChar (m % 10) = digitChar (n % 10) := by
        simpa using h4
      have hmod : m % 10 = n % 10 :=
        digitChar_inj _ (Nat.mod_lt _ (by decide)) _ (Nat.mod_lt _ (by decide)) hdig
      omega

theorem natRepr_inj {m n : Nat} (h : natRepr m = natRepr n) : m = n :=
  natDigits_inj m n (congrArg String.data h)

/-! ### splitext and candidate-path lemmas -/

theorem splitextData_append (l : List Char) :
    (splitextData l).1 ++ (splitextData l).2 = l := by
  unfold splitextData
  split <;> split
  all_goals dsimp only
  all_goals try split_ifs
  all_goals simp [List.take_append_drop]

theorem splitext_append (s : String) : (splitext s).1 ++ (splitext s).2 = s := by
  cases s with
  | mk data =>
    show String.mk _ ++ String.mk _ = String.mk data
    rw [show ∀ a b : List Char, String.mk a ++ String.mk b = String.mk (a ++ b) from fun _ _ => rfl]
    exact congrArg String.mk (splitextData_append data)

theorem candidate_data (folder stem extn : String) (k : Nat) :
    (candidate folder stem extn k).data =
      folder.data ++ ("/".data ++ (stem.data ++ ("_".data ++ (natDigits k ++ extn.data)))) := by
  simp [candidate, pjoin, natRepr, String.data_append, List.append_assoc]

theorem candidate_inj {folder stem extn : String} {a b : Nat}
    (h : candidate folder stem extn a = candidate folder stem extn b) : a = b := by
  have hd := congrArg String.data h
  rw [candidate_data, candidate_data] at hd
  have h1 := List.append_inj_right hd rfl
  have h2 := List.append_inj_right h1 rfl
  have h3 := List.append_inj_right h2 rfl
  have h4 := List.append_inj_right h3 rfl
  exact natDigits_inj _ _ (List.append_inj_left' h4 rfl)

theorem base_ne_candidate {folder stem extn : String} (destName : String)
    (hsp : destName = stem ++ extn) (k : Nat) :
    pjoin folder destName ≠ candidate folder stem extn k := by
  intro h
  have hd := congrArg (fun s : String => s.data.length) h
  have hpos := natDigits_length_pos k
  simp only [pjoin, candidate_data, hsp, String.data_append, List.append_assoc,
    List.length_append] at hd
  omega

/-! ### Collision-loop specification -/

theorem checkSeq_shift (folder stem extn : String) (counter : Nat) (cur : String) (j : Nat) :
    checkSeq folder stem extn (counter + 1) (candidate folder stem extn counter) j
      = checkSeq folder stem extn counter cur (j + 1) := by
  cases j with
  | zero => simp [checkSeq]
  | succ j =>
    show candidate folder stem extn (counter + 1 + j) = candidate folder stem extn (counter + (j + 1))
    congr 1
    omega

theorem collideLoop_spec (existing : List String) (folder stem extn : String) :
    ∀ fuel counter cur,
      (∃ j, j < fuel ∧ checkSeq folder stem extn counter cur j ∉ existing) →
      ∃ j, (∀ i, i < j → checkSeq folder stem extn counter cur i ∈ existing) ∧
        checkSeq folder stem extn counter cur j ∉ existing ∧
        collideLoop existing folder stem extn fuel counter cur =
          checkSeq folder stem extn counter cur j := by
  intro fuel
  induction fuel with
  | zero =>
    intro counter cur hex
    obtain ⟨j, hj, _⟩ := hex
    omega
  | succ fuel ih =>
    intro counter cur hex
    by_cases hc : cur ∈ existing
    · obtain ⟨j, hjlt, hjfree⟩ := hex
      cases j with
      | zero => exact absurd hc hjfree
      | succ j =>
        have hex2 : ∃ j2, j2 < fuel ∧
            checkSeq folder stem extn (counter + 1) (candidate folder stem extn counter) j2
              ∉ existing := by
          refine ⟨j, by omega, ?_⟩
          rw [checkSeq_shift folder stem extn counter cur j]
          exact hjfree
        obtain ⟨j0, hall, hfree, heq⟩ := ih (counter + 1) (candidate folder stem extn counter) hex2
        refine ⟨j0 + 1, ?_, ?_, ?_⟩
        · intro i hi
          cases i with
          | zero => exact hc
          | succ i =>
            rw [← checkSeq_shift folder stem extn counter cur i]
            exact hall i (by omega)
        · rw [← checkSeq_shift folder stem extn counter cur j0]
          exact hfree
        · rw [show collideLoop existing folder stem extn (fuel + 1) counter cur =
              collideLoop existing folder stem extn fuel (counter + 1)
                (candidate folder stem extn counter) from by
            simp only [collideLoop, if_pos hc]]
          rw [heq, checkSeq_shift folder stem extn counter cur j0]
    · refine ⟨0, ?_, hc, ?_⟩
      · intro i hi
        omega
      · simp only [collideLoop, if_neg hc]
        rfl

theorem exists_checkSeq_free (existing : List String) (folder stem extn destName : String)
    (hsp : destName = stem ++ extn) :
    ∃ j, j < existing.length + 1 ∧
      checkSeq folder stem extn 1 (pjoin folder destName) j ∉ existing := by
  by_contra hcon
  push_neg at hcon
  have hinj : Function.Injective (checkSeq folder stem extn 1 (pjoin folder destName)) := by
    intro a b hab
    match a, b with
    | 0, 0 => rfl
    | 0, b + 1 => exact absurd hab (base_ne_candidate destName hsp (1 + b))
    | a + 1, 0 => exact absurd hab.symm (base_ne_candidate destName hsp (1 + a))
    | a + 1, b + 1 =>
      have : 1 + a = 1 + b := candidate_inj hab
      omega
  have hnd : ((List.range (existing.length + 1)).map
      (checkSeq folder stem extn 1 (pjoin folder destName))).Nodup :=
    (List.nodup_range _).map hinj
  have hsub : ((List.range (existing.length + 1)).map
      (checkSeq folder stem extn 1 (pjoin folder destName))) ⊆ existing := by
    intro x hx
    simp only [List.mem_map, List.mem_range] at hx
    obtain ⟨j, hj, rfl⟩ := hx
    exact hcon j hj
  have hle := (hnd.subperm hsub).length_le
  simp only [List.length_map, List.length_range] at hle
  omega

theorem findDestPath_spec (existing : List String) (folder destName : String) :
    ∃ j, (∀ i, i < j → checkSeq folder (splitext destName).1 (splitext destName).2 1
        (pjoin folder destName) i ∈ existing) ∧
      checkSeq folder (splitext destName).1 (splitext destName).2 1
        (pjoin folder destName) j ∉ existing ∧
      findDestPath existing folder destName =
        checkSeq folder (splitext destName).1 (splitext destName).2 1
          (pjoin folder destName) j := by
  have hsp : destName = (splitext destName).1 ++ (splitext destName).2 :=
    (splitext_append destName).symm
  obtain ⟨j, hj, hfree⟩ :=
    exists_checkSeq_free existing folder (splitext destName).1 (splitext destName).2 destName hsp
  exact collideLoop_spec existing folder (splitext destName).1 (splitext destName).2
    (existing.length + 1) 1 (pjoin folder destName) ⟨j, hj, hfree⟩

theorem findDestPath_not_mem (existing : List String) (folder destName : String) :
    findDestPath existing folder destName ∉ existing := by
  obtain ⟨j, _, hfree, heq⟩ := findDestPath_spec existing folder destName
  rw [heq]
  exact hfree

theorem findDestPath_of_not_mem (existing : List String) (folder destName : String)
    (h : pjoin folder destName ∉ existing) :
    findDestPath existing folder destName = pjoin folder destName := by
  obtain ⟨j, hall, hfree, heq⟩ := findDestPath_spec existing folder destName
  cases j with
  | zero => exact heq
  | succ j => exact absurd (hall 0 (by omega)) h

theorem findDestPath_collision (existing : List String) (folder destName : String)
    (h : pjoin folder destName ∈ existing) :
    ∃ k, 1 ≤ k ∧
      findDestPath existing folder destName =
        candidate folder (splitext destName).1 (splitext destName).2 k ∧
      candidate folder (splitext destName).1 (splitext destName).2 k ∉ existing ∧
      ∀ i, 1 ≤ i → i < k →
        candidate folder (splitext destName).1 (splitext destName).2 i ∈ existing := by
  obtain ⟨j, hall, hfree, heq⟩ := findDestPath_spec existing folder destName
  cases j with
  | zero => exact absurd h hfree
  | succ j =>
    refine ⟨1 + j, by omega, heq, hfree, ?_⟩
    intro i h1 hik
    obtain ⟨i2, rfl⟩ : ∃ i2, i = 1 + i2 := ⟨i - 1, by omega⟩
    exact hall (i2 + 1) (by omega)

theorem findDestPath_in_folder (existing : List String) (folder destName : String) :
    ∃ nm, findDestPath existing folder destName = pjoin folder nm := by
  obtain ⟨j, _, _, heq⟩ := findDestPath_spec existing folder destName
  cases j with
  | zero => exact ⟨destName, heq⟩
  | succ j =>
    exact ⟨(splitext destName).1 ++ "_" ++ natRepr (1 + j) ++ (splitext destName).2, heq⟩

/-! ### Per-file processing lemmas -/

theorem str_ext {a b : String} (h : a.data = b.data) : a = b := by
  cases a with
  | mk d1 =>
    cases b with
    | mk d2 => exact congrArg String.mk h

theorem lookup_cons_of_ne {p a : String} {c : Nat} {l : List (String × Nat)} (h : p ≠ a) :
    List.lookup p ((a, c) :: l) = List.lookup p l := by
  simp [List.lookup, beq_eq_false_iff_ne.mpr h]

theorem candidate_ends (folder stem extn : String) (k : Nat) :
    candidate folder stem extn k = (folder ++ "/" ++ (stem ++ "_" ++ natRepr k)) ++ extn := by
  apply str_ext
  rw [candidate_data]
  simp [String.data_append, List.append_assoc, natRepr]

theorem processFile_dst (pil mv cv : Bool) (destDir : String) (st : FSState) (f : FileData)
    (hproc : extOf f ∈ IMAGE_EXTENSIONS ∨ extOf f ∈ VIDEO_EXTENSIONS)
    (hok : cv = true → extOf f = ".heic" → f.convertOk = true) :
    (processFile pil mv cv destDir st f).dst =
      (findDestPath (keys st.dst) (targetFolderOf pil destDir f) (destNameOf cv f), f.content)
        :: st.dst := by
  unfold processFile
  rw [if_pos hproc]
  dsimp only
  by_cases hcv : cv = true ∧ extOf f = ".heic"
  · rw [if_pos hcv, if_pos (hok hcv.1 hcv.2)]
    have hdn : destNameOf cv f = (splitext f.name).1 ++ ".jpg" := by
      unfold destNameOf
      rw [if_pos hcv]
    rw [hdn]
    by_cases hmv : mv = true
    · rw [if_pos hmv]
    · rw [if_neg hmv]
  · rw [if_neg hcv]
    have hdn : destNameOf cv f = f.name := by
      unfold destNameOf
      rw [if_neg hcv]
    rw [hdn]
    by_cases hmv : mv = true
    · rw [if_pos hmv]
    · rw [if_neg hmv]

theorem processFile_convert_fail (pil mv : Bool) (destDir : String) (st : FSState) (f : FileData)
    (hheic : extOf f = ".heic") (hfail : f.convertOk = false) :
    processFile pil mv true destDir st f =
      { st with log := ("Failed to convert " ++ srcPathOf f) :: st.log } := by
  unfold processFile
  rw [if_pos (Or.inl (by rw [hheic]; decide))]
  dsimp only
  rw [if_pos ⟨rfl, hheic⟩, if_neg (by rw [hfail]; exact Bool.false_ne_true)]

theorem processFile_convert_ok (pil mv : Bool) (destDir : String) (st : FSState) (f : FileData)
    (hheic : extOf f = ".heic") (hok : f.convertOk = true) :
    processFile pil mv true destDir st f =
      { src := if mv = true then st.src.filter (fun p => p.1 != srcPathOf f) else st.src,
        dst := (findDestPath (keys st.dst) (targetFolderOf pil destDir f)
            ((splitext f.name).1 ++ ".jpg"), f.content) :: st.dst,
        log := ("Converted: " ++ srcPathOf f ++ " -> "
            ++ findDestPath (keys st.dst) (targetFolderOf pil destDir f)
              ((splitext f.name).1 ++ ".jpg")) :: st.log } := by
  unfold processFile
  rw [if_pos (Or.inl (by rw [hheic]; decide))]
  dsimp only
  have hdn : destNameOf true f = (splitext f.name).1 ++ ".jpg" := by
    unfold destNameOf
    rw [if_pos ⟨rfl, hheic⟩]
  rw [if_pos ⟨rfl, hheic⟩, if_pos hok, hdn]
  by_cases hmv : mv = true
  · rw [if_pos hmv, if_pos hmv]
  · rw [if_neg hmv, if_neg hmv]

/-! ### Date-resolution lemmas -/

theorem get_creation_date_usable (f : FileData) (items : List (String × String))
    (it : String × String) (d : Date)
    (hmem : pathExtOf f ∈ IMAGE_EXTENSIONS) (hnh : pathExtOf f ≠ ".heic")
    (hex : f.exif = .ok items)
    (hfind : items.find? (fun p => p.1 = EXIF_DATETIME_TAG) = some it)
    (hparse : strptimeDT it.2 = some d) :
    get_creation_date true f = d := by
  unfold get_creation_date
  rw [if_pos ⟨rfl, hmem, hnh⟩, hex]
  dsimp only
  rw [hfind]
  dsimp only
  rw [hparse]

theorem get_creation_date_fallback (pil : Bool) (f : FileData) (hnu : ¬ exifUsable pil f) :
    get_creation_date pil f = f.mtime := by
  unfold get_creation_date
  by_cases hc : pil = true ∧ pathExtOf f ∈ IMAGE_EXTENSIONS ∧ pathExtOf f ≠ ".heic"
  · obtain ⟨hpil, hmem, hnh⟩ := hc
    rw [if_pos ⟨hpil, hmem, hnh⟩]
    cases hex : f.exif with
    | error e => rfl
    | ok items =>
      dsimp only
      cases hfind : items.find? (fun p => p.1 = EXIF_DATETIME_TAG) with
      | none => rfl
      | some it =>
        dsimp only
        cases hparse : strptimeDT it.2 with
        | none => rfl
        | some d =>
          exact absurd ⟨hpil, hmem, hnh, items, it, d, hex, hfind, hparse⟩ hnu
  · rw [if_neg hc]

/-! ### Claim theorems -/

/-- C3: the date-resolution operation never fails outward: for every input it
returns a timestamp, which is either the parsed EXIF `DateTimeOriginal` value
(when the open, the tag lookup and the parse all succeed) or the file's
modification time in every other case. -/
theorem C3_date_resolution_total (pil : Bool) (f : FileData) :
    get_creation_date pil f = f.mtime ∨
      ∃ items it d, f.exif = .ok items ∧
        items.find? (fun p => p.1 = EXIF_DATETIME_TAG) = some it ∧
        strptimeDT it.2 = some d ∧ get_creation_date pil f = d := by
  by_cases hu : exifUsable pil f
  · obtain ⟨hpil, hmem, hnh, items, it, d, hex, hfind, hparse⟩ := hu
    subst hpil
    right
    exact ⟨items, it, d, hex, hfind, hparse,
      get_creation_date_usable f items it d hmem hnh hex hfind hparse⟩
  · left
    exact get_creation_date_fallback pil f hu

/-- C9: a file whose (lowercased) extension is not in the image extension set
is resolved from the modification time, whatever its EXIF data holds; the
same is true of every file when Pillow is unavailable. -/
theorem C9_no_exif_for_non_images (pil : Bool) (f : FileData)
    (h : pathExtOf f ∉ IMAGE_EXTENSIONS ∨ pil = false) :
    get_creation_date pil f = f.mtime ∧
      ∀ e2, get_creation_date pil { f with exif := e2 } = f.mtime := by
  have hgen : ∀ g : FileData, pathExtOf g = pathExtOf f → g.mtime = f.mtime →
      get_creation_date pil g = f.mtime := by
    intro g hpe hmt
    rw [get_creation_date_fallback pil g]
    · exact hmt
    · rintro ⟨hpil, hmem, -, -⟩
      rcases h with h | h
      · rw [hpe] at hmem
        exact h hmem
      · rw [h] at hpil
        exact Bool.false_ne_true hpil
  exact ⟨hgen f rfl rfl, fun e2 => hgen { f with exif := e2 } rfl rfl⟩

/-- C9 witness: an MP4 video carrying a `DateTimeOriginal` item is still
resolved from its modification time even with Pillow available. -/
theorem C9_witness :
    (pathExtOf fileC9 ∉ IMAGE_EXTENSIONS ∨ (true : Bool) = false) ∧
      (get_creation_date true fileC9 = fileC9.mtime ∧
        ∀ e2, get_creation_date true { fileC9 with exif := e2 } = fileC9.mtime) :=
  ⟨Or.inl (by decide), C9_no_exif_for_non_images true fileC9 (Or.inl (by decide))⟩

/-- C1 counterexample: `c.heic` with EXIF date 2020:01:01 and mtime 2023-05-06,
processed with conversion enabled, is placed at `dest/2023/05/c.jpg` (the
modification-time folder), not at `dest/2020/01/c.jpg` as the claim states. -/
theorem C1_counterexample :
    (processFile true false true "dest" ⟨[("src/c.heic", 0)], [], []⟩ fileC1).dst =
        [("dest/2023/05/c.jpg", 0)] ∧
      (processFile true false true "dest" ⟨[("src/c.heic", 0)], [], []⟩ fileC1).dst ≠
        [("dest/2020/01/c.jpg", 0)] := by
  constructor
  · rfl
  · decide

/-- C1 amended: for a HEIC source file the EXIF branch is never taken
(`get_creation_date` tests `ext != ".heic"`), so even with a valid
`DateTimeOriginal` and conversion enabled the destination year/month folder
comes from the file's modification time; the file is still written as
`<stem>.jpg` inside that folder. -/
theorem C1_amended_heic_uses_mtime (pil mv : Bool) (destDir : String) (st : FSState)
    (f : FileData)
    (hpath : pathExtOf f = ".heic") (hname : extOf f = ".heic")
    (hok : f.convertOk = true) :
    get_creation_date pil f = f.mtime ∧
      (processFile pil mv true destDir st f).dst =
        (findDestPath (keys st.dst) (ymFolder destDir f.mtime)
            ((splitext f.name).1 ++ ".jpg"), f.content) :: st.dst := by
  have hdate : get_creation_date pil f = f.mtime := by
    unfold get_creation_date
    rw [if_neg]
    intro hcond
    exact hcond.2.2 hpath
  refine ⟨hdate, ?_⟩
  rw [processFile_convert_ok pil mv destDir st f hname hok]
  have hfold : targetFolderOf pil destDir f = ymFolder destDir f.mtime := by
    unfold targetFolderOf ymFolder
    rw [hdate]
  rw [hfold]

/-- C1 amended witness: the fixture `fileC1` is placed under its
modification-time folder `dest/2023/05`. -/
theorem C1_amended_witness :
    pathExtOf fileC1 = ".heic" ∧ extOf fileC1 = ".heic" ∧ fileC1.convertOk = true ∧
      (get_creation_date true fileC1 = fileC1.mtime ∧
        (processFile true false true "dest" ⟨[("src/c.heic", 0)], [], []⟩ fileC1).dst =
          (findDestPath (keys (⟨[("src/c.heic", 0)], [], []⟩ : FSState).dst)
              (ymFolder "dest" fileC1.mtime)
              ((splitext fileC1.name).1 ++ ".jpg"), fileC1.content)
            :: (⟨[("src/c.heic", 0)], [], []⟩ : FSState).dst) :=
  ⟨by decide, by decide, rfl,
    C1_amended_heic_uses_mtime true false "dest" ⟨[("src/c.heic", 0)], [], []⟩ fileC1
      (by decide) (by decide) rfl⟩

/-- C4: for a non-HEIC image file with Pillow available and a valid EXIF
`DateTimeOriginal` value, the resolved date is the parsed tag value and the
file is placed under `destDir/year/month` of that tag, not of the
modification time. -/
theorem C4_exif_determines_folder (mv cv : Bool) (destDir : String) (st : FSState)
    (f : FileData) (items : List (String × String)) (it : String × String) (d : Date)
    (hmem : pathExtOf f ∈ IMAGE_EXTENSIONS) (hnh : pathExtOf f ≠ ".heic")
    (hex : f.exif = .ok items)
    (hfind : items.find? (fun p => p.1 = EXIF_DATETIME_TAG) = some it)
    (hparse : strptimeDT it.2 = some d)
    (hproc : extOf f ∈ IMAGE_EXTENSIONS ∨ extOf f ∈ VIDEO_EXTENSIONS)
    (hnh2 : extOf f ≠ ".heic") :
    get_creation_date true f = d ∧
      targetFolderOf true destDir f = ymFolder destDir d ∧
      (processFile true mv cv destDir st f).dst =
        (findDestPath (keys st.dst) (ymFolder destDir d) f.name, f.content) :: st.dst := by
  have hdate := get_creation_date_usable f items it d hmem hnh hex hfind hparse
  have hfold : targetFolderOf true destDir f = ymFolder destDir d := by
    unfold targetFolderOf ymFolder
    rw [hdate]
  refine ⟨hdate, hfold, ?_⟩
  rw [processFile_dst true mv cv destDir st f hproc (fun _ hh => absurd hh hnh2)]
  have hdn : destNameOf cv f = f.name := by
    unfold destNameOf
    rw [if_neg (fun hc => hnh2 hc.2)]
  rw [hdn, hfold]

/-- C4 witness: `a.jpg` with EXIF date 2021:03:15 lands under `dest/2021/03`
although its modification time is 2022-07-01. -/
theorem C4_witness :
    pathExtOf fileC4 ∈ IMAGE_EXTENSIONS ∧ pathExtOf fileC4 ≠ ".heic" ∧
      fileC4.exif = .ok [("DateTimeOriginal", "2021:03:15 10:00:00")] ∧
      [("DateTimeOriginal", "2021:03:15 10:00:00")].find?
          (fun p => p.1 = EXIF_DATETIME_TAG)
        = some ("DateTimeOriginal", "2021:03:15 10:00:00") ∧
      strptimeDT "2021:03:15 10:00:00" = some ⟨2021, 3, 15, 10, 0, 0⟩ ∧
      (get_creation_date true fileC4 = ⟨2021, 3, 15, 10, 0, 0⟩ ∧
        targetFolderOf true "dest" fileC4 = ymFolder "dest" ⟨2021, 3, 15, 10, 0, 0⟩ ∧
        (processFile true false false "dest" emptyFS fileC4).dst =
          (findDestPath (keys emptyFS.dst) (ymFolder "dest" ⟨2021, 3, 15, 10, 0, 0⟩)
              fileC4.name, fileC4.content) :: emptyFS.dst) :=
  ⟨by decide, by decide, rfl, by decide, by decide,
    C4_exif_determines_folder false false "dest" emptyFS fileC4
      [("DateTimeOriginal", "2021:03:15 10:00:00")]
      ("DateTimeOriginal", "2021:03:15 10:00:00") ⟨2021, 3, 15, 10, 0, 0⟩
      (by decide) (by decide) rfl (by decide) (by decide) (Or.inl (by decide)) (by decide)⟩

/-- C5: a processed file without usable EXIF data (Pillow absent, non-image
or HEIC extension, failed open, missing tag, or unparsable value) resolves to
its modification time and is placed under `destDir/year/month` of that
modification time. -/
theorem C5_fallback_to_mtime_folder (pil mv cv : Bool) (destDir : String) (st : FSState)
    (f : FileData)
    (hnu : ¬ exifUsable pil f)
    (hproc : extOf f ∈ IMAGE_EXTENSIONS ∨ extOf f ∈ VIDEO_EXTENSIONS)
    (hok : cv = true → extOf f = ".heic" → f.convertOk = true) :
    get_creation_date pil f = f.mtime ∧
      targetFolderOf pil destDir f = ymFolder destDir f.mtime ∧
      (processFile pil mv cv destDir st f).dst =
        (findDestPath (keys st.dst) (ymFolder destDir f.mtime) (destNameOf cv f), f.content)
          :: st.dst := by
  have hdate := get_creation_date_fallback pil f hnu
  have hfold : targetFolderOf pil destDir f = ymFolder destDir f.mtime := by
    unfold targetFolderOf ymFolder
    rw [hdate]
  refine ⟨hdate, hfold, ?_⟩
  rw [processFile_dst pil mv cv destDir st f hproc hok, hfold]

/-- C5 witness: `b.png` whose open fails is placed under its mtime folder
`dest/2022/07`. -/
theorem C5_witness :
    (¬ exifUsable true fileC5) ∧
      (get_creation_date true fileC5 = fileC5.mtime ∧
        targetFolderOf true "dest" fileC5 = ymFolder "dest" fileC5.mtime ∧
        (processFile true false false "dest" emptyFS fileC5).dst =
          (findDestPath (keys emptyFS.dst) (ymFolder "dest" fileC5.mtime)
              (destNameOf false fileC5), fileC5.content) :: emptyFS.dst) :=
  ⟨by rintro ⟨-, -, -, items, it, d, hex, -, -⟩; simp [fileC5] at hex,
    C5_fallback_to_mtime_folder true false false "dest" emptyFS fileC5
      (by rintro ⟨-, -, -, items, it, d, hex, -, -⟩; simp [fileC5] at hex)
      (Or.inl (by decide)) (fun _ _ => rfl)⟩

/-- C6: for the convert action on a HEIC file, a failing decode/encode is
logged and skipped (source list and destination list unchanged), the source
is deleted only on a successful encode and only when move was requested, and
processing continues with the rest of the walked files. -/
theorem C6_convert_failure_safety (pil mv : Bool) (destDir : String) (st : FSState)
    (f : FileData) (rest : List FileData)
    (hheic : extOf f = ".heic") :
    (f.convertOk = false →
        (processFile pil mv true destDir st f).src = st.src ∧
          (processFile pil mv true destDir st f).dst = st.dst ∧
          (processFile pil mv true destDir st f).log =
            ("Failed to convert " ++ srcPathOf f) :: st.log) ∧
      (f.convertOk = true → mv = false →
        (processFile pil mv true destDir st f).src = st.src) ∧
      (f.convertOk = true → mv = true →
        (processFile pil mv true destDir st f).src =
          st.src.filter (fun p => p.1 != srcPathOf f)) ∧
      organize_files pil true true destDir mv true (f :: rest) st =
        (0, rest.foldl (processFile pil mv true destDir)
          (processFile pil mv true destDir st f)) := by
  refine ⟨?_, ?_, ?_, ?_⟩
  · intro hfail
    rw [processFile_convert_fail pil mv destDir st f hheic hfail]
    exact ⟨rfl, rfl, rfl⟩
  · intro hok hmv
    rw [processFile_convert_ok pil mv destDir st f hheic hok]
    dsimp only
    rw [if_neg (by rw [hmv]; exact Bool.false_ne_true)]
  · intro hok hmv
    rw [processFile_convert_ok pil mv destDir st f hheic hok]
    dsimp only
    rw [if_pos hmv]
  · unfold organize_files
    rw [if_neg (by simp), if_neg (by simp)]
    rfl

/-- C6 witness: the failing HEIC fixture is skipped with a logged failure,
its source entry untouched and no destination entry created, and the run goes
on. -/
theorem C6_witness :
    extOf fileC6 = ".heic" ∧
      ((fileC6.convertOk = false →
          (processFile true true true "dest" stC6 fileC6).src = stC6.src ∧
            (processFile true true true "dest" stC6 fileC6).dst = stC6.dst ∧
            (processFile true true true "dest" stC6 fileC6).log =
              ("Failed to convert " ++ srcPathOf fileC6) :: stC6.log) ∧
        (fileC6.convertOk = true → (true : Bool) = false →
          (processFile true true true "dest" stC6 fileC6).src = stC6.src) ∧
        (fileC6.convertOk = true → (true : Bool) = true →
          (processFile true true true "dest" stC6 fileC6).src =
            stC6.src.filter (fun p => p.1 != srcPathOf fileC6)) ∧
        organize_files true true true "dest" true true (fileC6 :: []) stC6 =
          (0, List.foldl (processFile true true true "dest")
            (processFile true true true "dest" stC6 fileC6) [])) :=
  ⟨by decide, C6_convert_failure_safety true true "dest" stC6 fileC6 [] (by decide)⟩

/-- C7: when the source directory is missing, or conversion is requested
without the HEIC capability, the run reports an error and stops with exit
code 1 leaving both file trees untouched. -/
theorem C7_preflight_failure (pil heif srcIsDir mv cv : Bool) (destDir : String)
    (files : List FileData) (st : FSState)
    (h : srcIsDir = false ∨ (cv = true ∧ heif = false)) :
    (organize_files pil heif srcIsDir destDir mv cv files st).1 = 1 ∧
      (organize_files pil heif srcIsDir destDir mv cv files st).2.src = st.src ∧
      (organize_files pil heif srcIsDir destDir mv cv files st).2.dst = st.dst ∧
      ∃ m, (organize_files pil heif srcIsDir destDir mv cv files st).2.log = m :: st.log := by
  rcases h with h | ⟨hcv, hh⟩
  · subst h
    unfold organize_files
    rw [if_pos (by simp)]
    exact ⟨rfl, rfl, rfl, _, rfl⟩
  · subst hcv
    subst hh
    cases srcIsDir with
    | false =>
      unfold organize_files
      rw [if_pos (by simp)]
      exact ⟨rfl, rfl, rfl, _, rfl⟩
    | true =>
      unfold organize_files
      rw [if_neg (by simp), if_pos (by simp)]
      exact ⟨rfl, rfl, rfl, _, rfl⟩

/-- C7 witness: a missing source directory yields exit code 1 and an
untouched state. -/
theorem C7_witness :
    ((false : Bool) = false ∨ ((false : Bool) = true ∧ (true : Bool) = false)) ∧
      ((organize_files true true false "dest" false false [] emptyFS).1 = 1 ∧
        (organize_files true true false "dest" false false [] emptyFS).2.src = emptyFS.src ∧
        (organize_files true true false "dest" false false [] emptyFS).2.dst = emptyFS.dst ∧
        ∃ m, (organize_files true true false "dest" false false [] emptyFS).2.log =
          m :: emptyFS.log) :=
  ⟨Or.inl rfl,
    C7_preflight_failure true true false false false "dest" [] emptyFS (Or.inl rfl)⟩

/-- C8: the exit code is 0 exactly when the source directory exists and
conversion, if requested, has its capability — for every list of walked
files, including lists whose conversions all fail. -/
theorem C8_exit_codes (pil heif srcIsDir mv cv : Bool) (destDir : String)
    (files : List FileData) (st : FSState) :
    (organize_files pil heif srcIsDir destDir mv cv files st).1 = 0 ↔
      srcIsDir = true ∧ (cv = true → heif = true) := by
  cases srcIsDir <;> cases cv <;> cases heif <;> simp [organize_files]

/-- C2: two processed files that map to the same fresh base destination path
end up at two distinct paths — the first at the base name, the second at a
numbered candidate `stem_k.ext` with `k ≥ 1` — and the data of every
pre-existing destination path is unchanged. -/
theorem C2_collision_safety (pil mv cv : Bool) (destDir : String) (st0 : FSState)
    (f1 f2 : FileData)
    (h1 : extOf f1 ∈ IMAGE_EXTENSIONS ∨ extOf f1 ∈ VIDEO_EXTENSIONS)
    (h2 : extOf f2 ∈ IMAGE_EXTENSIONS ∨ extOf f2 ∈ VIDEO_EXTENSIONS)
    (hok1 : cv = true → extOf f1 = ".heic" → f1.convertOk = true)
    (hok2 : cv = true → extOf f2 = ".heic" → f2.convertOk = true)
    (hsf : targetFolderOf pil destDir f2 = targetFolderOf pil destDir f1)
    (hsn : destNameOf cv f2 = destNameOf cv f1)
    (hfresh : pjoin (targetFolderOf pil destDir f1) (destNameOf cv f1) ∉ keys st0.dst) :
    ∃ k, 1 ≤ k ∧
      (processFile pil mv cv destDir (processFile pil mv cv destDir st0 f1) f2).dst =
          (candidate (targetFolderOf pil destDir f1) (splitext (destNameOf cv f1)).1
              (splitext (destNameOf cv f1)).2 k, f2.content) ::
            (pjoin (targetFolderOf pil destDir f1) (destNameOf cv f1), f1.content)
              :: st0.dst ∧
        candidate (targetFolderOf pil destDir f1) (splitext (destNameOf cv f1)).1
            (splitext (destNameOf cv f1)).2 k ≠
          pjoin (targetFolderOf pil destDir f1) (destNameOf cv f1) ∧
        ∀ p ∈ keys st0.dst,
          List.lookup p
              (processFile pil mv cv destDir (processFile pil mv cv destDir st0 f1) f2).dst
            = List.lookup p st0.dst := by
  have hd1 := processFile_dst pil mv cv destDir st0 f1 h1 hok1
  have hb1 : findDestPath (keys st0.dst) (targetFolderOf pil destDir f1) (destNameOf cv f1)
      = pjoin (targetFolderOf pil destDir f1) (destNameOf cv f1) :=
    findDestPath_of_not_mem _ _ _ hfresh
  have hk1 : keys (processFile pil mv cv destDir st0 f1).dst =
      pjoin (targetFolderOf pil destDir f1) (destNameOf cv f1) :: keys st0.dst := by
    rw [hd1, hb1]
    rfl
  have hd2 := processFile_dst pil mv cv destDir (processFile pil mv cv destDir st0 f1) f2
    h2 hok2
  rw [hsf, hsn] at hd2
  have hcoll : pjoin (targetFolderOf pil destDir f1) (destNameOf cv f1)
      ∈ keys (processFile pil mv cv destDir st0 f1).dst := by
    rw [hk1]
    exact List.mem_cons_self _ _
  obtain ⟨k, hk, heq, hfree, hmin⟩ :=
    findDestPath_collision (keys (processFile pil mv cv destDir st0 f1).dst)
      (targetFolderOf pil destDir f1) (destNameOf cv f1) hcoll
  refine ⟨k, hk, ?_, ?_, ?_⟩
  · rw [hd2, heq, hd1, hb1]
  · intro hcand
    rw [hcand] at hfree
    exact hfree hcoll
  · intro p hp
    rw [hd2, heq, hd1, hb1]
    rw [lookup_cons_of_ne, lookup_cons_of_ne]
    · intro hpe
      exact hfresh (hpe ▸ hp)
    · intro hpe
      apply hfree
      rw [hk1]
      exact List.mem_cons_of_mem _ (hpe ▸ hp)

/-- C2 witness: two `x.jpg` files from different source folders with the same
mtime month both land in `dest/2022/07`, the second with suffix `_k`. -/
theorem C2_witness :
    (extOf fileA ∈ IMAGE_EXTENSIONS ∨ extOf fileA ∈ VIDEO_EXTENSIONS) ∧
      (extOf fileB ∈ IMAGE_EXTENSIONS ∨ extOf fileB ∈ VIDEO_EXTENSIONS) ∧
      targetFolderOf false "dest" fileB = targetFolderOf false "dest" fileA ∧
      destNameOf false fileB = destNameOf false fileA ∧
      pjoin (targetFolderOf false "dest" fileA) (destNameOf false fileA)
        ∉ keys emptyFS.dst ∧
      (∃ k, 1 ≤ k ∧
        (processFile false false false "dest"
            (processFile false false false "dest" emptyFS fileA) fileB).dst =
            (candidate (targetFolderOf false "dest" fileA)
                (splitext (destNameOf false fileA)).1
                (splitext (destNameOf false fileA)).2 k, fileB.content) ::
              (pjoin (targetFolderOf false "dest" fileA) (destNameOf false fileA),
                fileA.content) :: emptyFS.dst ∧
          candidate (targetFolderOf false "dest" fileA)
              (splitext (destNameOf false fileA)).1
              (splitext (destNameOf false fileA)).2 k ≠
            pjoin (targetFolderOf false "dest" fileA) (destNameOf false fileA) ∧
          ∀ p ∈ keys emptyFS.dst,
            List.lookup p
                (processFile false false false "dest"
                  (processFile false false false "dest" emptyFS fileA) fileB).dst
              = List.lookup p emptyFS.dst) :=
  ⟨Or.inl (by decide), Or.inl (by decide), by decide, rfl, by decide,
    C2_collision_safety false false false "dest" emptyFS fileA fileB
      (Or.inl (by decide)) (Or.inl (by decide)) (fun _ _ => rfl) (fun _ _ => rfl)
      (by decide) rfl (by decide)⟩

/-- C10: a colliding destination name is renamed to `stem_k.ext` — the stem
and extension of the base destination name are preserved — where `k ≥ 1` is
the first index in the checked sequence whose path does not exist; when the
base name ends in `.jpg` (a converted HEIC) the chosen path still ends in
`.jpg`. -/
theorem C10_collision_keeps_stem_ext (existing : List String) (folder destName : String)
    (h : pjoin folder destName ∈ existing) :
    ∃ k, 1 ≤ k ∧
      findDestPath existing folder destName =
        candidate folder (splitext destName).1 (splitext destName).2 k ∧
      candidate folder (splitext destName).1 (splitext destName).2 k ∉ existing ∧
      (∀ i, 1 ≤ i → i < k →
        candidate folder (splitext destName).1 (splitext destName).2 i ∈ existing) ∧
      ((splitext destName).2 = ".jpg" →
        ∃ s, findDestPath existing folder destName = s ++ ".jpg") := by
  obtain ⟨k, hk, heq, hfree, hmin⟩ := findDestPath_collision existing folder destName h
  refine ⟨k, hk, heq, hfree, hmin, ?_⟩
  intro hjpg
  refine ⟨folder ++ "/" ++ ((splitext destName).1 ++ "_" ++ natRepr k), ?_⟩
  rw [heq, ← hjpg]
  exact candidate_ends folder (splitext destName).1 (splitext destName).2 k

/-- C10 witness: `c.jpg` colliding in `d/2020/01` becomes `d/2020/01/c_1.jpg`. -/
theorem C10_witness :
    pjoin "d/2020/01" "c.jpg" ∈ existC10 ∧
      (∃ k, 1 ≤ k ∧
        findDestPath existC10 "d/2020/01" "c.jpg" =
          candidate "d/2020/01" (splitext "c.jpg").1 (splitext "c.jpg").2 k ∧
        candidate "d/2020/01" (splitext "c.jpg").1 (splitext "c.jpg").2 k ∉ existC10 ∧
        (∀ i, 1 ≤ i → i < k →
          candidate "d/2020/01" (splitext "c.jpg").1 (splitext "c.jpg").2 i ∈ existC10) ∧
        ((splitext "c.jpg").2 = ".jpg" →
          ∃ s, findDestPath existC10 "d/2020/01" "c.jpg" = s ++ ".jpg")) :=
  ⟨by decide, C10_collision_keeps_stem_ext existC10 "d/2020/01" "c.jpg" (by decide)⟩

end PhotosOrganiser
